import Mathlib

/-!
Shallow embedding of `src/KaitaiStream.js` (the Kaitai Struct JavaScript
runtime, `dreamsavior/kaitai_struct_translatable`).

The embedding models the read-only use of a `KaitaiStream` constructed from
an `ArrayBuffer`: the constructor runs the `buffer` setter, which sets
`_byteLength = buffer.byteLength`, so the virtual length always equals the
physical buffer length.  The backing buffer is a `List Nat` of bytes, and all
prototype methods that mutate `this.position` are modelled as functions from
a stream state to a (result, new state) pair; a JavaScript `throw` is an
`Except.error` result paired with the state at the moment of the throw.
-/

/-- Errors thrown by the code in `src/KaitaiStream.js`:
* `eof` is `KaitaiEOFError` (lines 454-460), carrying `bytesReq` and
  `bytesAvail = this.byteLength - this.position` (an integer that the source
  computes by plain subtraction, hence modelled as `Int`);
* `rangeError` is the `RangeError` a JavaScript `DataView` accessor raises on
  an out-of-bounds read (the numeric readers perform no check of their own);
* `referenceError` is the JavaScript `ReferenceError` raised when an
  undeclared identifier is evaluated (line 380 reads the undefined variable
  `term`);
* `jsString` is a plain string thrown with `throw("...")` (line 426). -/
inductive KaitaiError where
  | eof (bytesReq : Nat) (bytesAvail : Int)
  | rangeError
  | referenceError (name : String)
  | jsString (msg : String)
deriving DecidableEq

/-- The state of a `KaitaiStream`: the physical backing buffer bytes
(`this._buffer`), the fixed base offset (`this._byteOffset`), and the cursor
(`this.position`).  For a stream built from an `ArrayBuffer`,
`this._byteLength` always equals `buffer.length`, so it is not a separate
field. -/
structure KaitaiStream where
  buffer : List Nat
  byteOffset : Nat
  position : Nat
deriving DecidableEq

namespace KaitaiStream

/-- The `byteLength` getter (lines 48-51): `this._byteLength - this._byteOffset`,
with `_byteLength = buffer.length` in the read-only case. -/
def byteLength (s : KaitaiStream) : Nat := s.buffer.length - s.byteOffset

/-- The number of bytes remaining in the logical view,
`this.byteLength - this.position`, computed over the integers exactly as the
source's subtraction is. -/
def remaining (s : KaitaiStream) : Int := (byteLength s : Int) - (s.position : Int)

/-- The logical view of the stream: the backing buffer from `byteOffset` on. -/
def view (s : KaitaiStream) : List Nat := s.buffer.drop s.byteOffset

/-- `mapUint8Array(length)` (lines 473-481): if `position + length >
byteLength` it throws `KaitaiEOFError(length, byteLength - position)`;
otherwise it returns the `length` bytes of the buffer starting at
`byteOffset + position` and advances `position` by `length`. -/
def mapUint8Array (s : KaitaiStream) (len : Nat) :
    Except KaitaiError (List Nat) × KaitaiStream :=
  if s.position + len > byteLength s then
    (Except.error (KaitaiError.eof len (remaining s)), s)
  else
    (Except.ok ((s.buffer.drop (s.byteOffset + s.position)).take len),
     { s with position := s.position + len })

/-- `readBytes(len)` (lines 345-347): `return this.mapUint8Array(len)`. -/
def readBytes (s : KaitaiStream) (len : Nat) :
    Except KaitaiError (List Nat) × KaitaiStream :=
  mapUint8Array s len

/-- `readBytesFull()` (lines 349-351):
`return this.mapUint8Array(this.byteLength - this.position)`. -/
def readBytesFull (s : KaitaiStream) :
    Except KaitaiError (List Nat) × KaitaiStream :=
  mapUint8Array s (byteLength s - s.position)

/-- A DataView read of `n` bytes at view offset `off`.  The DataView is
created (line 65) as `new DataView(this._buffer, this._byteOffset)`, so it
spans `buffer.length - byteOffset = byteLength` bytes; a `getUintN` /
`getFloatN` access past that bound raises a `RangeError`, otherwise it reads
the raw bytes `buffer[byteOffset + off .. byteOffset + off + n)`. -/
def getBytesDV (s : KaitaiStream) (off n : Nat) : Except KaitaiError (List Nat) :=
  if off + n > byteLength s then Except.error KaitaiError.rangeError
  else Except.ok ((s.buffer.drop (s.byteOffset + off)).take n)

/-- Little-endian assembly of a byte list into an unsigned integer. -/
def leValue : List Nat → Nat
  | [] => 0
  | b :: bs => b + 256 * leValue bs

/-- Big-endian assembly of a byte list into an unsigned integer. -/
def beValue (bs : List Nat) : Nat := leValue bs.reverse

/-- `readU1()` (lines 153-157): `getUint8(position)`, then `position += 1`. -/
def readU1 (s : KaitaiStream) : Except KaitaiError Nat × KaitaiStream :=
  match getBytesDV s s.position 1 with
  | Except.error e => (Except.error e, s)
  | Except.ok bs => (Except.ok (leValue bs), { s with position := s.position + 1 })

/-- `readU2le()` (lines 163-167): `getUint16(position, 1)`, then `position += 2`. -/
def readU2le (s : KaitaiStream) : Except KaitaiError Nat × KaitaiStream :=
  match getBytesDV s s.position 2 with
  | Except.error e => (Except.error e, s)
  | Except.ok bs => (Except.ok (leValue bs), { s with position := s.position + 2 })

/-- `readU2be()` (lines 185-189): `getUint16(position)`, then `position += 2`. -/
def readU2be (s : KaitaiStream) : Except KaitaiError Nat × KaitaiStream :=
  match getBytesDV s s.position 2 with
  | Except.error e => (Except.error e, s)
  | Except.ok bs => (Except.ok (beValue bs), { s with position := s.position + 2 })

/-- `readU4le()` (lines 173-177): `getUint32(position, 1)`, then `position += 4`. -/
def readU4le (s : KaitaiStream) : Except KaitaiError Nat × KaitaiStream :=
  match getBytesDV s s.position 4 with
  | Except.error e => (Except.error e, s)
  | Except.ok bs => (Except.ok (leValue bs), { s with position := s.position + 4 })

/-- `readU4be()` (lines 195-199): `getUint32(position)`, then `position += 4`. -/
def readU4be (s : KaitaiStream) : Except KaitaiError Nat × KaitaiStream :=
  match getBytesDV s s.position 4 with
  | Except.error e => (Except.error e, s)
  | Except.ok bs => (Except.ok (beValue bs), { s with position := s.position + 4 })

/-- `readF4le()` (lines 231-235): `getFloat32(position, 1)`, `position += 4`.
The value is modelled as the little-endian 32-bit pattern of the four bytes
read; the IEEE-754 interpretation of that pattern is outside the embedding
(the claims about the float readers concern only bounds and position). -/
def readF4le (s : KaitaiStream) : Except KaitaiError Nat × KaitaiStream :=
  match getBytesDV s s.position 4 with
  | Except.error e => (Except.error e, s)
  | Except.ok bs => (Except.ok (leValue bs), { s with position := s.position + 4 })

/-- `readF4be()` (lines 215-219): `getFloat32(position)`, `position += 4`.
Value modelled as the big-endian 32-bit pattern (see `readF4le`). -/
def readF4be (s : KaitaiStream) : Except KaitaiError Nat × KaitaiStream :=
  match getBytesDV s s.position 4 with
  | Except.error e => (Except.error e, s)
  | Except.ok bs => (Except.ok (beValue bs), { s with position := s.position + 4 })

/-- `readF8le()` (lines 237-241): `getFloat64(position, 1)`, `position += 8`.
Value modelled as the little-endian 64-bit pattern (see `readF4le`). -/
def readF8le (s : KaitaiStream) : Except KaitaiError Nat × KaitaiStream :=
  match getBytesDV s s.position 8 with
  | Except.error e => (Except.error e, s)
  | Except.ok bs => (Except.ok (leValue bs), { s with position := s.position + 8 })

/-- `readF8be()` (lines 221-225): `getFloat64(position)`, `position += 8`.
Value modelled as the big-endian 64-bit pattern (see `readF4le`). -/
def readF8be (s : KaitaiStream) : Except KaitaiError Nat × KaitaiStream :=
  match getBytesDV s s.position 8 with
  | Except.error e => (Except.error e, s)
  | Except.ok bs => (Except.ok (beValue bs), { s with position := s.position + 8 })

end KaitaiStream

/-- A JavaScript number argument as far as `seek` distinguishes them: `NaN`,
the two infinities, or a finite integer (the spec types `seek`'s argument as
an integer). -/
inductive JsNum where
  | nan
  | posInf
  | negInf
  | int (v : Int)
deriving DecidableEq

/-- JavaScript `Math.min` on two arguments: `NaN` if either argument is
`NaN`, otherwise the usual order with `-Infinity` least and `+Infinity`
greatest. -/
def jsMin : JsNum → JsNum → JsNum
  | JsNum.nan, _ => JsNum.nan
  | _, JsNum.nan => JsNum.nan
  | JsNum.negInf, _ => JsNum.negInf
  | _, JsNum.negInf => JsNum.negInf
  | JsNum.posInf, b => b
  | a, JsNum.posInf => a
  | JsNum.int a, JsNum.int b => JsNum.int (min a b)

/-- JavaScript `Math.max` on two arguments: `NaN` if either argument is
`NaN`, otherwise the usual order with `+Infinity` greatest. -/
def jsMax : JsNum → JsNum → JsNum
  | JsNum.nan, _ => JsNum.nan
  | _, JsNum.nan => JsNum.nan
  | JsNum.posInf, _ => JsNum.posInf
  | _, JsNum.posInf => JsNum.posInf
  | JsNum.negInf, b => b
  | a, JsNum.negInf => a
  | JsNum.int a, JsNum.int b => JsNum.int (max a b)

namespace KaitaiStream

/-- `seek(pos)` (lines 140-143):
`npos = Math.max(0, Math.min(this.byteLength, pos))`, then
`this.position = (isNaN(npos) || !isFinite(npos)) ? 0 : npos`.
After clamping against the integer bounds `0` and `byteLength`, `npos` can
only be `NaN` (when `pos` is `NaN`) or a finite integer in
`[0, byteLength]`, so the stored position is a natural number. -/
def seek (s : KaitaiStream) (pos : JsNum) : KaitaiStream :=
  let npos := jsMax (JsNum.int 0) (jsMin (JsNum.int (byteLength s)) pos)
  let p : Nat :=
    match npos with
    | JsNum.nan => 0
    | JsNum.posInf => 0
    | JsNum.negInf => 0
    | JsNum.int v => v.toNat
  { s with position := p }

/-- `createStringFromArray(array)` (lines 491-498): `String.fromCharCode`
applied chunk-by-chunk and concatenated; the chunking (0x8000 code units at a
time) does not change the result, which is the character-per-byte string. -/
def createStringFromArray (arr : List Nat) : String :=
  String.mk (arr.map (fun b => Char.ofNat b))

/-- The scan loop of `readStrz` (line 376):
`for (var i = 0; i < blen && u8[i] != terminator; i++);` — the index of the
first occurrence of `terminator`, or the list's length if absent. -/
def scanTerm : List Nat → Nat → Nat
  | [], _ => 0
  | b :: bs, t => if b = t then 0 else scanTerm bs t + 1

/-- The bytes scanned by `readStrz`: the remainder of the logical view from
`position` on (the source builds `u8` over the physical tail but bounds the
scan by `blen = byteLength - position`). -/
def remBytes (s : KaitaiStream) : List Nat :=
  (s.buffer.drop (s.byteOffset + s.position)).take (byteLength s - s.position)

/-- `readStrz(encoding, terminator, include, consume, eosError)`
(lines 373-396), modelled for the `null`/"ASCII" encoding path of
`arrayToString` (other encodings delegate to external decoders —
`TextDecoder`, `Buffer`, `iconv-lite` — outside the embedding; the byte
coverage and the position bookkeeping do not depend on the encoding).
If the scan index `i` reaches `blen`: with `eosError` the source evaluates
`"End of stream reached, but no terminator " + term + " found"`, where
`term` is an undeclared variable, so a `ReferenceError` for `term` is raised;
without `eosError` it returns `arrayToString(this.mapUint8Array(i))`.
Otherwise it maps `i + 1` bytes when `include` is set, else `i` bytes, then
adds `1` to `position` when `consume` is set, and decodes the mapped bytes. -/
def readStrz (s : KaitaiStream) (terminator : Nat) (inc consume eosError : Bool) :
    Except KaitaiError String × KaitaiStream :=
  let blen := byteLength s - s.position
  let i := scanTerm (remBytes s) terminator
  if i = blen then
    if eosError then
      (Except.error (KaitaiError.referenceError "term"), s)
    else
      match mapUint8Array s i with
      | (Except.error e, s1) => (Except.error e, s1)
      | (Except.ok arr, s1) => (Except.ok (createStringFromArray arr), s1)
  else
    match (if inc then mapUint8Array s (i + 1) else mapUint8Array s i) with
    | (Except.error e, s1) => (Except.error e, s1)
    | (Except.ok arr, s1) =>
      let s2 := if consume then { s1 with position := s1.position + 1 } else s1
      (Except.ok (createStringFromArray arr), s2)

/-- `processXorOne(data, key)` (lines 402-408): `r[i] = data[i] ^ key` into a
fresh `Uint8Array` (whose element store keeps the low 8 bits, hence the
`% 256`). -/
def processXorOne (data : List Nat) (key : Nat) : List Nat :=
  data.map (fun b => (b ^^^ key) % 256)

/-- The loop of `processXorMany` (lines 414-420): `r[i] = data[i] ^ key[ki]`
with `ki++` wrapped back to `0` whenever `ki >= key.length`; the `Uint8Array`
store keeps the low 8 bits. -/
def xorManyLoop : List Nat → List Nat → Nat → List Nat
  | [], _, _ => []
  | b :: bs, key, ki =>
    (b ^^^ key.getD ki 0) % 256 ::
      xorManyLoop bs key (if ki + 1 ≥ key.length then 0 else ki + 1)

/-- `processXorMany(data, key)` (lines 410-422): run the loop with `ki = 0`. -/
def processXorMany (data key : List Nat) : List Nat :=
  xorManyLoop data key 0

/-- One byte of the `processRotateLeft` loop body (line 433), for
`groupSize == 1` (so `mask = 7`, `antiAmount = -amount & 7`):
`(data[i] << amount) & 0xff | (data[i] >> antiAmount)` stored into a
`Uint8Array`.  JavaScript `<<` uses the shift count `ToUint32(amount) & 31 =
amount mod 32`; `x & 0xff` keeps the low 8 bits of the 32-bit result, which
for `b * 2^s` is `(b * 2^s) mod 256`; `-amount & 7 = (-amount) mod 8`; `>>`
on a nonnegative byte is division by a power of two; the element store keeps
the low 8 bits. -/
def rotByte (b : Nat) (amount : Int) : Nat :=
  ((b * 2 ^ ((amount % 32).toNat)) % 256 |||
    b / 2 ^ (((-amount) % 8).toNat)) % 256

/-- `processRotateLeft(data, amount, groupSize)` (lines 424-436): throws the
string `"unable to rotate group of " + groupSize + " bytes yet"` unless
`groupSize == 1`; otherwise maps `rotByte` over the data. -/
def processRotateLeft (data : List Nat) (amount : Int) (groupSize : Int) :
    Except KaitaiError (List Nat) :=
  if groupSize ≠ 1 then
    Except.error (KaitaiError.jsString
      ("unable to rotate group of " ++ toString groupSize ++ " bytes yet"))
  else
    Except.ok (data.map (fun b => rotByte b amount))

/-- The fixed-width numeric reader methods installed on
`KaitaiStream.prototype` in `src/KaitaiStream.js` (lines 149-265), in source
order.  The "Signed" section of the source (lines 203-205) is an empty
heading: no signed readers are defined. -/
def prototypeNumericReaders : List String :=
  ["readU1", "readU2le", "readU4le", "readU2be", "readU4be",
   "readF4be", "readF8be", "readF4le", "readF8le", "readFloat32", "readFloat64"]

/-- Modelled from the claim wording for comparison with the code: the 8-bit
left bit-rotation of a byte by `amount` positions (rotation of 8 bits is
cyclic with period 8). -/
def rotl8 (b : Nat) (amount : Nat) : Nat :=
  (b * 2 ^ (amount % 8)) % 256 ||| b / 2 ^ (8 - amount % 8)

/-- Whether a modelled call ended in a thrown error. -/
def isError {α : Type} : Except KaitaiError α × KaitaiStream → Bool
  | (Except.error _, _) => true
  | (Except.ok _, _) => false

end KaitaiStream

/-! ## Helper lemmas -/

namespace KaitaiStream

theorem getBytesDV_error_of_remaining_lt (s : KaitaiStream) (w : Nat)
    (h : remaining s < (w : Int)) :
    getBytesDV s s.position w = Except.error KaitaiError.rangeError := by
  have hc : s.position + w > byteLength s := by
    unfold remaining at h
    omega
  unfold getBytesDV
  rw [if_pos hc]

theorem getBytesDV_ok_of_le (s : KaitaiStream) (w : Nat)
    (h : s.position + w ≤ byteLength s) :
    getBytesDV s s.position w =
      Except.ok ((s.buffer.drop (s.byteOffset + s.position)).take w) := by
  unfold getBytesDV
  rw [if_neg (by omega)]

theorem mapUint8Array_ok (s : KaitaiStream) (len : Nat)
    (h : s.position + len ≤ byteLength s) :
    mapUint8Array s len =
      (Except.ok ((s.buffer.drop (s.byteOffset + s.position)).take len),
       { s with position := s.position + len }) := by
  unfold mapUint8Array
  rw [if_neg (by omega)]

theorem mapUint8Array_error (s : KaitaiStream) (len : Nat)
    (h : byteLength s < s.position + len) :
    mapUint8Array s len = (Except.error (KaitaiError.eof len (remaining s)), s) := by
  unfold mapUint8Array
  rw [if_pos (by omega)]

theorem view_drop (s : KaitaiStream) :
    (view s).drop s.position = s.buffer.drop (s.byteOffset + s.position) := by
  unfold view
  rw [List.drop_drop, Nat.add_comm]

end KaitaiStream

/-! ## Claim theorems -/

namespace KaitaiStream

/-- C1: for every cursor state and `len` with at least `len` bytes remaining,
`readBytes len` returns exactly the `len` bytes of the logical view starting
at `position` and advances `position` by exactly `len`; with fewer than `len`
bytes remaining it fails with a `KaitaiEOFError` carrying the requested count
`len` and the available count `byteLength - position`, and returns no
truncated result. -/
theorem C1_readBytes_spec (s : KaitaiStream) (len : Nat) :
    ((len : Int) ≤ remaining s →
      readBytes s len =
        (Except.ok (((view s).drop s.position).take len),
         { s with position := s.position + len }) ∧
      (((view s).drop s.position).take len).length = len) ∧
    (remaining s < (len : Int) →
      readBytes s len = (Except.error (KaitaiError.eof len (remaining s)), s)) := by
  constructor
  · intro h
    have hle : s.position + len ≤ byteLength s := by
      unfold remaining at h
      omega
    constructor
    · unfold readBytes
      rw [mapUint8Array_ok s len hle, view_drop]
    · rw [view_drop]
      have hlen : len ≤ s.buffer.length - (s.byteOffset + s.position) := by
        unfold byteLength at hle
        omega
      simp only [List.length_take, List.length_drop]
      omega
  · intro h
    have hgt : byteLength s < s.position + len := by
      unfold remaining at h
      omega
    unfold readBytes
    rw [mapUint8Array_error s len hgt]

/-- Witness for C1 at concrete inputs: on buffer `[1,2,3,4,5]` at position 1,
`readBytes 2` returns `[2,3]` and moves to position 3, and `readBytes 10`
fails with `KaitaiEOFError(10, 4)` leaving the state untouched. -/
theorem C1_readBytes_spec_witness :
    readBytes ⟨[1, 2, 3, 4, 5], 0, 1⟩ 2 =
      (Except.ok [2, 3], ⟨[1, 2, 3, 4, 5], 0, 3⟩) ∧
    readBytes ⟨[1, 2, 3, 4, 5], 0, 1⟩ 10 =
      (Except.error (KaitaiError.eof 10 4), ⟨[1, 2, 3, 4, 5], 0, 1⟩) := by
  constructor
  · have h := (C1_readBytes_spec ⟨[1, 2, 3, 4, 5], 0, 1⟩ 2).1 (by decide)
    exact h.1.trans (by rfl)
  · have h := (C1_readBytes_spec ⟨[1, 2, 3, 4, 5], 0, 1⟩ 10).2 (by decide)
    exact h.trans (by rfl)

/-- C2 counterexample: `readU4le` on buffer `[1,2]` at position 0 (only 2
bytes remaining) fails with the data view's `RangeError`, which is not the
`KaitaiEOFError` carrying `bytesRequested = 4` and the remaining count `2`
that the claim requires. -/
theorem C2_readU4le_counterexample :
    readU4le ⟨[1, 2], 0, 0⟩ = (Except.error KaitaiError.rangeError, ⟨[1, 2], 0, 0⟩) ∧
    KaitaiError.rangeError ≠ KaitaiError.eof 4 2 :=
  ⟨rfl, by decide⟩

/-- C2 (amended): every fixed-width numeric reader, called with fewer
remaining logical bytes than its width, fails — but with the `RangeError`
raised by the underlying `DataView` accessor, not with a `KaitaiEOFError`
carrying requested/available counts (only the `mapUint8Array`-based byte
reads produce that error); the position is left unchanged. -/
theorem C2_short_numeric_reads_fail (s : KaitaiStream) :
    (remaining s < 1 → readU1 s = (Except.error KaitaiError.rangeError, s)) ∧
    (remaining s < 2 → readU2le s = (Except.error KaitaiError.rangeError, s)) ∧
    (remaining s < 2 → readU2be s = (Except.error KaitaiError.rangeError, s)) ∧
    (remaining s < 4 → readU4le s = (Except.error KaitaiError.rangeError, s)) ∧
    (remaining s < 4 → readU4be s = (Except.error KaitaiError.rangeError, s)) ∧
    (remaining s < 4 → readF4le s = (Except.error KaitaiError.rangeError, s)) ∧
    (remaining s < 4 → readF4be s = (Except.error KaitaiError.rangeError, s)) ∧
    (remaining s < 8 → readF8le s = (Except.error KaitaiError.rangeError, s)) ∧
    (remaining s < 8 → readF8be s = (Except.error KaitaiError.rangeError, s)) := by
  refine ⟨fun h => ?_, fun h => ?_, fun h => ?_, fun h => ?_, fun h => ?_,
    fun h => ?_, fun h => ?_, fun h => ?_, fun h => ?_⟩
  · unfold readU1
    rw [getBytesDV_error_of_remaining_lt s 1 h]
  · unfold readU2le
    rw [getBytesDV_error_of_remaining_lt s 2 h]
  · unfold readU2be
    rw [getBytesDV_error_of_remaining_lt s 2 h]
  · unfold readU4le
    rw [getBytesDV_error_of_remaining_lt s 4 h]
  · unfold readU4be
    rw [getBytesDV_error_of_remaining_lt s 4 h]
  · unfold readF4le
    rw [getBytesDV_error_of_remaining_lt s 4 h]
  · unfold readF4be
    rw [getBytesDV_error_of_remaining_lt s 4 h]
  · unfold readF8le
    rw [getBytesDV_error_of_remaining_lt s 8 h]
  · unfold readF8be
    rw [getBytesDV_error_of_remaining_lt s 8 h]

/-- Witness for C2 (amended): `readU4le` on the 2-byte buffer `[1,2]` fails
with `RangeError` and leaves the state unchanged. -/
theorem C2_short_numeric_reads_fail_witness :
    remaining ⟨[1, 2], 0, 0⟩ < 4 ∧
    readU4le ⟨[1, 2], 0, 0⟩ = (Except.error KaitaiError.rangeError, ⟨[1, 2], 0, 0⟩) :=
  ⟨by decide, (C2_short_numeric_reads_fail ⟨[1, 2], 0, 0⟩).2.2.2.1 (by decide)⟩

/-- C5 counterexample: `seek(+Infinity)` on a 10-byte view clamps to
`byteLength = 10`, which is finite, so the stored position is `10`, not the
`0` the claim requires for every non-finite argument. -/
theorem C5_seek_posInf_counterexample :
    (seek ⟨[0, 1, 2, 3, 4, 5, 6, 7, 8, 9], 0, 0⟩ JsNum.posInf).position = 10 ∧
    (10 : Nat) ≠ 0 := by decide

/-- C5 (amended): `seek(pos)` never fails and clamps a finite `pos` into
`[0, logicalLength]`; a `NaN` argument resolves to `0`; `-Infinity` resolves
to `0` (through the clamp); `+Infinity` resolves to `logicalLength` (through
the clamp), not to `0`. -/
theorem C5_seek_clamps (s : KaitaiStream) (pos : JsNum) :
    (∀ v : Int, pos = JsNum.int v →
      (seek s pos).position = (max 0 (min (byteLength s : Int) v)).toNat ∧
      0 ≤ max 0 (min (byteLength s : Int) v) ∧
      max 0 (min (byteLength s : Int) v) ≤ (byteLength s : Int)) ∧
    (pos = JsNum.nan → (seek s pos).position = 0) ∧
    (pos = JsNum.negInf → (seek s pos).position = 0) ∧
    (pos = JsNum.posInf → (seek s pos).position = byteLength s) := by
  refine ⟨?_, ?_, ?_, ?_⟩
  · rintro v rfl
    refine ⟨rfl, ?_, ?_⟩ <;> omega
  · rintro rfl
    rfl
  · rintro rfl
    rfl
  · rintro rfl
    show (max 0 ((byteLength s : Int))).toNat = byteLength s
    omega

/-- Witness for C5 (amended): on a 10-byte buffer, `seek(-5)` yields position
`0` and `seek(1000)` yields position `10 = logicalLength`. -/
theorem C5_seek_clamps_witness :
    (seek ⟨[0, 1, 2, 3, 4, 5, 6, 7, 8, 9], 0, 0⟩ (JsNum.int (-5))).position = 0 ∧
    (seek ⟨[0, 1, 2, 3, 4, 5, 6, 7, 8, 9], 0, 0⟩ (JsNum.int 1000)).position = 10 := by
  constructor
  · have h := ((C5_seek_clamps ⟨[0, 1, 2, 3, 4, 5, 6, 7, 8, 9], 0, 0⟩
      (JsNum.int (-5))).1 (-5) rfl).1
    exact h.trans (by decide)
  · have h := ((C5_seek_clamps ⟨[0, 1, 2, 3, 4, 5, 6, 7, 8, 9], 0, 0⟩
      (JsNum.int 1000)).1 1000 rfl).1
    exact h.trans (by decide)

end KaitaiStream

namespace KaitaiStream

theorem remBytes_take (s : KaitaiStream) (i : Nat) (h : i ≤ byteLength s - s.position) :
    (remBytes s).take i = (s.buffer.drop (s.byteOffset + s.position)).take i := by
  unfold remBytes
  rw [List.take_take, min_eq_left h]

/-- C3 counterexample: `readStrz` on bytes `[0x41, 0x00]` with
`terminator = 0, include = true, consume = false` finds the terminator at
relative offset `i = 1`; the claim says the position advances by exactly
`i = 1` (one more only if `consume`), i.e. to `1`, but the source maps
`i + 1` bytes when `include` is set, leaving the position at `2`. -/
theorem C3_readStrz_include_counterexample :
    (readStrz ⟨[0x41, 0x00], 0, 0⟩ 0 true false false).2.position = 2 ∧
    (2 : Nat) ≠ 1 := by decide

/-- C3 (amended): when the terminator occurs in the remaining bytes at first
relative offset `i`, `readStrz` returns the decoded string covering bytes
`[position, position + i)` when `include` is false and
`[position, position + i]` when `include` is true, and the position advances
by `i`, plus one byte if `include` is true, plus one further byte if
`consume` is true (so with `include` set the advance is `i + 1`, or `i + 2`
when also consuming — not `i` plus the consume byte alone). -/
theorem C3_readStrz_found (s : KaitaiStream) (terminator : Nat)
    (inc consume eosError : Bool) (i : Nat)
    (hscan : scanTerm (remBytes s) terminator = i)
    (hfound : i < byteLength s - s.position) :
    readStrz s terminator inc consume eosError =
      (Except.ok (createStringFromArray ((remBytes s).take (if inc then i + 1 else i))),
       { s with position :=
          s.position + i + (if inc then 1 else 0) + (if consume then 1 else 0) }) := by
  have hib : s.position + (i + 1) ≤ byteLength s := by omega
  have hib0 : s.position + i ≤ byteLength s := by omega
  have hti : (remBytes s).take (i + 1) =
      (s.buffer.drop (s.byteOffset + s.position)).take (i + 1) :=
    remBytes_take s (i + 1) (by omega)
  have hti0 : (remBytes s).take i =
      (s.buffer.drop (s.byteOffset + s.position)).take i :=
    remBytes_take s i (by omega)
  simp only [readStrz]
  rw [hscan, if_neg (by omega), mapUint8Array_ok s (i + 1) hib, mapUint8Array_ok s i hib0]
  cases inc <;> cases consume <;> simp [hti, hti0] <;> omega

/-- Witness for C3 (amended), at the claim's own example: on bytes
`[0x41, 0x42, 0x00, 0x43]` with `terminator = 0, include = false,
consume = true`, the terminator is first found at offset 2, the call returns
`"AB"`, and the position ends at `3`. -/
theorem C3_readStrz_found_witness :
    scanTerm (remBytes ⟨[0x41, 0x42, 0x00, 0x43], 0, 0⟩) 0 = 2 ∧
    readStrz ⟨[0x41, 0x42, 0x00, 0x43], 0, 0⟩ 0 false true false =
      (Except.ok "AB", ⟨[0x41, 0x42, 0x00, 0x43], 0, 3⟩) := by
  refine ⟨by decide, ?_⟩
  have h := C3_readStrz_found ⟨[0x41, 0x42, 0x00, 0x43], 0, 0⟩ 0 false true false 2
    (by decide) (by decide)
  exact h.trans (by rfl)

/-- C4 (code bug): on bytes `[0x41]` (no `0` terminator present): with
`eosError = true`, the source's line 380 evaluates
`"End of stream reached, but no terminator " + term + " found"` where `term`
is an undeclared variable (the parameter is named `terminator`), so the call
raises `ReferenceError: term is not defined` instead of the
terminator-not-found error that the claim — and the source's own message
text — intend; with `eosError = false`, as the claim states, it returns the
decoded remainder `"A"` and leaves the position at the end of the view. -/
theorem C4_readStrz_eos_eval :
    readStrz ⟨[0x41], 0, 0⟩ 0 false true true =
      (Except.error (KaitaiError.referenceError "term"), ⟨[0x41], 0, 0⟩) ∧
    readStrz ⟨[0x41], 0, 0⟩ 0 false true false =
      (Except.ok "A", ⟨[0x41], 0, 1⟩) :=
  ⟨rfl, rfl⟩

/-- C6 counterexample: none of the signed fixed-width integer reader names
required by the claim (`readS1`, `readS2le`, `readS2be`, `readS4le`,
`readS4be`) is among the reader methods the source installs on
`KaitaiStream.prototype` — the source's "Signed" section (lines 203-205) is
an empty heading. -/
theorem C6_no_signed_readers_counterexample :
    "readS1" ∉ prototypeNumericReaders ∧
    "readS2le" ∉ prototypeNumericReaders ∧
    "readS2be" ∉ prototypeNumericReaders ∧
    "readS4le" ∉ prototypeNumericReaders ∧
    "readS4be" ∉ prototypeNumericReaders := by decide

/-- C6 (amended): the cursor implements no signed fixed-width integer
readers; the fixed-width integer readers it does implement are the unsigned
`readU1`, `readU2le`, `readU2be`, `readU4le`, `readU4be`, and each of those
follows the uniform reader pattern: it reads the fixed-width value starting
at `position`, advances `position` by exactly the value's byte width, and
returns the decoded (little- or big-endian) value. -/
theorem C6_unsigned_readers_uniform (s : KaitaiStream) :
    (∀ r ∈ ["readS1", "readS2le", "readS2be", "readS4le", "readS4be"],
      r ∉ prototypeNumericReaders) ∧
    (s.position + 1 ≤ byteLength s →
      readU1 s = (Except.ok (leValue ((s.buffer.drop (s.byteOffset + s.position)).take 1)),
        { s with position := s.position + 1 })) ∧
    (s.position + 2 ≤ byteLength s →
      readU2le s = (Except.ok (leValue ((s.buffer.drop (s.byteOffset + s.position)).take 2)),
        { s with position := s.position + 2 })) ∧
    (s.position + 2 ≤ byteLength s →
      readU2be s = (Except.ok (beValue ((s.buffer.drop (s.byteOffset + s.position)).take 2)),
        { s with position := s.position + 2 })) ∧
    (s.position + 4 ≤ byteLength s →
      readU4le s = (Except.ok (leValue ((s.buffer.drop (s.byteOffset + s.position)).take 4)),
        { s with position := s.position + 4 })) ∧
    (s.position + 4 ≤ byteLength s →
      readU4be s = (Except.ok (beValue ((s.buffer.drop (s.byteOffset + s.position)).take 4)),
        { s with position := s.position + 4 })) := by
  refine ⟨by decide, fun h => ?_, fun h => ?_, fun h => ?_, fun h => ?_, fun h => ?_⟩
  · unfold readU1
    rw [getBytesDV_ok_of_le s 1 h]
  · unfold readU2le
    rw [getBytesDV_ok_of_le s 2 h]
  · unfold readU2be
    rw [getBytesDV_ok_of_le s 2 h]
  · unfold readU4le
    rw [getBytesDV_ok_of_le s 4 h]
  · unfold readU4be
    rw [getBytesDV_ok_of_le s 4 h]

/-- Witness for C6 (amended): `readU4le` on bytes `[0x78, 0x56, 0x34, 0x12]`
returns `0x12345678` and advances the position from 0 to 4. -/
theorem C6_unsigned_readers_uniform_witness :
    (⟨[0x78, 0x56, 0x34, 0x12], 0, 0⟩ : KaitaiStream).position + 4 ≤
      byteLength ⟨[0x78, 0x56, 0x34, 0x12], 0, 0⟩ ∧
    readU4le ⟨[0x78, 0x56, 0x34, 0x12], 0, 0⟩ =
      (Except.ok 0x12345678, ⟨[0x78, 0x56, 0x34, 0x12], 0, 4⟩) := by
  refine ⟨by decide, ?_⟩
  have h := (C6_unsigned_readers_uniform ⟨[0x78, 0x56, 0x34, 0x12], 0, 0⟩).2.2.2.2.1
    (by decide)
  exact h.trans (by rfl)

/-- C7: every read operation of the surface — the fixed-width numeric
readers, `readBytes`, `readBytesFull`, and the terminator string reader —
leaves the position (indeed the whole cursor state) unchanged whenever it
fails: in the source every throw happens before `this.position` is mutated,
so no partial read ever advances the cursor. -/
theorem C7_failed_reads_keep_position (s : KaitaiStream) (len terminator : Nat)
    (inc consume eosError : Bool) :
    (isError (readU1 s) = true → (readU1 s).2 = s) ∧
    (isError (readU2le s) = true → (readU2le s).2 = s) ∧
    (isError (readU2be s) = true → (readU2be s).2 = s) ∧
    (isError (readU4le s) = true → (readU4le s).2 = s) ∧
    (isError (readU4be s) = true → (readU4be s).2 = s) ∧
    (isError (readF4le s) = true → (readF4le s).2 = s) ∧
    (isError (readF4be s) = true → (readF4be s).2 = s) ∧
    (isError (readF8le s) = true → (readF8le s).2 = s) ∧
    (isError (readF8be s) = true → (readF8be s).2 = s) ∧
    (isError (readBytes s len) = true → (readBytes s len).2 = s) ∧
    (isError (readBytesFull s) = true → (readBytesFull s).2 = s) ∧
    (isError (readStrz s terminator inc consume eosError) = true →
      (readStrz s terminator inc consume eosError).2 = s) := by
  refine ⟨?_, ?_, ?_, ?_, ?_, ?_, ?_, ?_, ?_, ?_, ?_, ?_⟩
  · unfold readU1
    cases hE : getBytesDV s s.position 1 <;> simp [isError]
  · unfold readU2le
    cases hE : getBytesDV s s.position 2 <;> simp [isError]
  · unfold readU2be
    cases hE : getBytesDV s s.position 2 <;> simp [isError]
  · unfold readU4le
    cases hE : getBytesDV s s.position 4 <;> simp [isError]
  · unfold readU4be
    cases hE : getBytesDV s s.position 4 <;> simp [isError]
  · unfold readF4le
    cases hE : getBytesDV s s.position 4 <;> simp [isError]
  · unfold readF4be
    cases hE : getBytesDV s s.position 4 <;> simp [isError]
  · unfold readF8le
    cases hE : getBytesDV s s.position 8 <;> simp [isError]
  · unfold readF8be
    cases hE : getBytesDV s s.position 8 <;> simp [isError]
  · unfold readBytes mapUint8Array
    split <;> simp [isError]
  · unfold readBytesFull mapUint8Array
    split <;> simp [isError]
  · simp only [readStrz]
    split
    · split
      · simp [isError]
      · by_cases hc : s.position + scanTerm (remBytes s) terminator ≤ byteLength s
        · rw [mapUint8Array_ok s (scanTerm (remBytes s) terminator) hc]
          simp [isError]
        · rw [mapUint8Array_error s (scanTerm (remBytes s) terminator) (by omega)]
          simp [isError]
    · by_cases hc0 : s.position + scanTerm (remBytes s) terminator ≤ byteLength s
      · by_cases hc1 : s.position + (scanTerm (remBytes s) terminator + 1) ≤ byteLength s
        · rw [mapUint8Array_ok s (scanTerm (remBytes s) terminator) hc0,
              mapUint8Array_ok s (scanTerm (remBytes s) terminator + 1) hc1]
          cases inc <;> simp [isError]
        · rw [mapUint8Array_ok s (scanTerm (remBytes s) terminator) hc0,
              mapUint8Array_error s (scanTerm (remBytes s) terminator + 1) (by omega)]
          cases inc <;> simp [isError]
      · rw [mapUint8Array_error s (scanTerm (remBytes s) terminator) (by omega),
            mapUint8Array_error s (scanTerm (remBytes s) terminator + 1) (by omega)]
        cases inc <;> simp [isError]

/-- Witness for C7: a failed `readU4le` and a failed `readBytes` on the
1-byte buffer `[7]` both leave the state unchanged. -/
theorem C7_failed_reads_keep_position_witness :
    isError (readU4le ⟨[7], 0, 0⟩) = true ∧ (readU4le ⟨[7], 0, 0⟩).2 = ⟨[7], 0, 0⟩ ∧
    isError (readBytes ⟨[7], 0, 0⟩ 5) = true ∧ (readBytes ⟨[7], 0, 0⟩ 5).2 = ⟨[7], 0, 0⟩ := by
  have h := C7_failed_reads_keep_position ⟨[7], 0, 0⟩ 5 0 false false false
  exact ⟨by decide, h.2.2.2.1 (by decide), by decide, h.2.2.2.2.2.2.2.2.2.1 (by decide)⟩

end KaitaiStream

namespace KaitaiStream

theorem xorManyLoop_length (data key : List Nat) (ki : Nat) :
    (xorManyLoop data key ki).length = data.length := by
  induction data generalizing ki with
  | nil => rfl
  | cons b bs ih => simp [xorManyLoop, ih]

theorem xorManyLoop_getD (data key : List Nat) :
    ∀ ki, ki < key.length → ∀ i, i < data.length →
      (xorManyLoop data key ki).getD i 0 =
        (data.getD i 0 ^^^ key.getD ((ki + i) % key.length) 0) % 256 := by
  induction data with
  | nil =>
    intro ki hki i hi
    simp at hi
  | cons b bs ih =>
    intro ki hki i hi
    cases i with
    | zero =>
      simp only [xorManyLoop, List.getD_cons_zero, Nat.add_zero]
      rw [Nat.mod_eq_of_lt hki]
    | succ j =>
      have hj : j < bs.length := by simpa using hi
      have hki' : (if ki + 1 ≥ key.length then 0 else ki + 1) < key.length := by
        split
        · omega
        · omega
      simp only [xorManyLoop, List.getD_cons_succ]
      rw [ih _ hki' j hj]
      have hidx : ((if ki + 1 ≥ key.length then 0 else ki + 1) + j) % key.length
          = (ki + (j + 1)) % key.length := by
        by_cases hwrap : ki + 1 ≥ key.length
        · rw [if_pos hwrap]
          have h1 : ki + (j + 1) = key.length + j := by omega
          rw [h1, Nat.add_mod_left, Nat.zero_add]
        · rw [if_neg hwrap]
          have h2 : ki + 1 + j = ki + (j + 1) := by omega
          rw [h2]
      rw [hidx]

/-- C8: for every byte sequence `data` and key of length at least 1,
`processXorMany` returns a sequence of the same length whose `i`-th byte is
`data[i] XOR key[i mod key.length]` — the key index cycles. -/
theorem C8_processXorMany_spec (data key : List Nat) (hk : 1 ≤ key.length)
    (hdata : ∀ b ∈ data, b < 256) (hkey : ∀ b ∈ key, b < 256) :
    (processXorMany data key).length = data.length ∧
    ∀ i, i < data.length →
      (processXorMany data key).getD i 0 =
        data.getD i 0 ^^^ key.getD (i % key.length) 0 := by
  constructor
  · exact xorManyLoop_length data key 0
  · intro i hi
    have h := xorManyLoop_getD data key 0 (by omega) i hi
    rw [Nat.zero_add] at h
    rw [processXorMany, h]
    have h256 : (256 : Nat) = 2 ^ 8 := by norm_num
    have hb : data.getD i 0 < 256 := by
      rw [List.getD_eq_getElem data 0 hi]
      exact hdata _ (List.getElem_mem hi)
    have hmod : i % key.length < key.length := Nat.mod_lt _ (by omega)
    have hkk : key.getD (i % key.length) 0 < 256 := by
      rw [List.getD_eq_getElem key 0 hmod]
      exact hkey _ (List.getElem_mem hmod)
    rw [h256] at hb hkk
    have hxor : data.getD i 0 ^^^ key.getD (i % key.length) 0 < 256 := by
      rw [h256]
      exact Nat.xor_lt_two_pow hb hkk
    exact Nat.mod_eq_of_lt hxor

/-- Witness for C8 at the claim's example:
`processXorMany([0x01, 0x02, 0x03], [0xFF, 0x00]) = [0xFE, 0x02, 0xFC]`,
and its byte 0 is `0x01 XOR 0xFF`. -/
theorem C8_processXorMany_spec_witness :
    processXorMany [0x01, 0x02, 0x03] [0xFF, 0x00] = [0xFE, 0x02, 0xFC] ∧
    (processXorMany [0x01, 0x02, 0x03] [0xFF, 0x00]).getD 0 0 = 0xFE := by
  refine ⟨by decide, ?_⟩
  have h := (C8_processXorMany_spec [0x01, 0x02, 0x03] [0xFF, 0x00]
    (by decide) (by decide) (by decide)).2 0 (by decide)
  exact h.trans (by decide)

set_option maxRecDepth 8000 in
theorem rotByte_eq_rotl8 :
    ∀ a : Nat, a < 8 → ∀ b : Nat, b < 256 → rotByte b (a : Int) = rotl8 b a := by decide

/-- C9 counterexample: for `amount = 9` the source computes
`(data[i] << 9) & 0xff | (data[i] >> ((-9) & 7))`, whose low byte is `0` on
`data = [1]`, while the 8-bit left rotation of `0b00000001` by 9 positions is
`0b00000010 = 2`: the claim's "for every amount" fails at `amount = 9`. -/
theorem C9_processRotateLeft_counterexample :
    processRotateLeft [1] 9 1 = Except.ok [0] ∧ rotl8 1 9 = 2 ∧ (0 : Nat) ≠ 2 :=
  ⟨rfl, rfl, by decide⟩

/-- C9 (amended): for every byte sequence and every amount with
`0 ≤ amount < 8`, `processRotateLeft(data, amount, 1)` returns the sequence
of each byte's 8 bits rotated left by `amount` positions (for amounts
outside that range the shifted low byte is not the rotation, as the
counterexample at `amount = 9` shows); and for every `groupSize ≠ 1` the
call fails with the explicit unsupported-group-size error. -/
theorem C9_processRotateLeft_spec (data : List Nat) (amount : Nat) (groupSize : Int)
    (hdata : ∀ b ∈ data, b < 256) (ha : amount < 8) :
    processRotateLeft data (amount : Int) 1 =
      Except.ok (data.map (fun b => rotl8 b amount)) ∧
    (groupSize ≠ 1 →
      processRotateLeft data (amount : Int) groupSize =
        Except.error (KaitaiError.jsString
          ("unable to rotate group of " ++ toString groupSize ++ " bytes yet"))) := by
  constructor
  · unfold processRotateLeft
    rw [if_neg (by simp)]
    exact congrArg Except.ok
      (List.map_congr_left (fun b hb => rotByte_eq_rotl8 amount ha b (hdata b hb)))
  · intro hg
    unfold processRotateLeft
    rw [if_pos hg]

/-- Witness for C9 (amended) at the claim's example:
`processRotateLeft([0b00000001], 1, 1) = [0b00000010]`, and `groupSize = 2`
fails with the unsupported-group-size error. -/
theorem C9_processRotateLeft_spec_witness :
    processRotateLeft [1] 1 1 = Except.ok [2] ∧
    processRotateLeft [1] 1 2 =
      Except.error (KaitaiError.jsString "unable to rotate group of 2 bytes yet") := by
  have h := C9_processRotateLeft_spec [1] 1 2 (by decide) (by decide)
  exact ⟨h.1.trans (by rfl), (h.2 (by decide)).trans (by rfl)⟩

/-- C10: `processXorOne` is an involution — applying it twice with the same
single-byte key returns the original byte sequence. -/
theorem C10_processXorOne_involution (data : List Nat) (key : Nat)
    (hdata : ∀ b ∈ data, b < 256) (hkey : key < 256) :
    processXorOne (processXorOne data key) key = data := by
  unfold processXorOne
  rw [List.map_map]
  have h : ∀ b ∈ data, ((b ^^^ key) % 256 ^^^ key) % 256 = b := by
    intro b hb
    have hb' : b < 256 := hdata b hb
    have h256 : (256 : Nat) = 2 ^ 8 := by norm_num
    have hxor : b ^^^ key < 256 := by
      rw [h256] at hb' hkey ⊢
      exact Nat.xor_lt_two_pow hb' hkey
    rw [Nat.mod_eq_of_lt hxor, Nat.xor_assoc, Nat.xor_self, Nat.xor_zero,
        Nat.mod_eq_of_lt (hdata b hb)]
  calc data.map ((fun b => (b ^^^ key) % 256) ∘ fun b => (b ^^^ key) % 256)
      = data.map id := List.map_congr_left (fun b hb => h b hb)
    _ = data := List.map_id data

/-- Witness for C10: double XOR with key `0xAB` restores `[1, 2, 3]`. -/
theorem C10_processXorOne_involution_witness :
    processXorOne (processXorOne [0x01, 0x02, 0x03] 0xAB) 0xAB = [0x01, 0x02, 0x03] :=
  C10_processXorOne_involution [0x01, 0x02, 0x03] 0xAB (by decide) (by decide)

end KaitaiStream
